import Mathlib

/-!
Shallow embedding of the goafweb user / password-reset subsystem.

The Go source is translated as follows:
* `error` values become the inductive `GoErr`; `fmt.Errorf("...: %w", err)`
  becomes `GoErr.wrap`, `errors.New` / `fmt.Errorf` with `%v` become
  `GoErr.msg`, and the three sentinel errors of errors.go become dedicated
  constructors.  `errors.Is` becomes `errIs`, which unwraps `wrap` chains.
* A function returning `(T, error)` becomes `Except GoErr T`; a mutating
  method additionally returns the updated store and/or the mutated record.
* The gorm-backed database is modelled as a list-backed store (the repo's
  own users_test.go mocks the DB the same way), with a `fail` field that
  simulates a gorm-level failure (`checkErr` turns gorm errors other than
  record-not-found into a "Database error" message).  gorm soft deletion
  is a `deleted` flag that all lookups filter on; fields tagged `gorm:"-"`
  (`Password`, `RememberToken`, `Token`) are erased on every row write.
* `goafweb/hash` (HMAC) and `goafweb/rand` are not under src/; they are
  modelled from the spec (see `hmacHash` and the `tok : Option String`
  arguments standing for the outcome of `rand.RememberToken()`).
* bcrypt is an external library; it is modelled by a deterministic,
  collision-free pair `bcryptGenerate` / `bcryptCompare` satisfying its
  contract (compare succeeds exactly on the hashed password).
-/

/-- Error model for the Go `error` values that appear in the subsystem. -/
inductive GoErr where
  /-- goafweb.ErrNotFound. -/
  | notFound
  /-- goafweb.ErrPWInvalid. -/
  | pwInvalid
  /-- goafweb.ErrAuth. -/
  | errAuth
  /-- an `errors.New` / non-wrapping `fmt.Errorf` value with the given text. -/
  | msg (s : String)
  /-- a `fmt.Errorf("<ctx>: %w", inner)` wrapper. -/
  | wrap (ctx : String) (inner : GoErr)
  deriving Repr, DecidableEq

/-- Decidable equality of `Except` results, used to evaluate the model on
concrete inputs. -/
instance {ε α : Type} [DecidableEq ε] [DecidableEq α] : DecidableEq (Except ε α) :=
  fun x y => by
    cases x <;> cases y <;>
      first
        | exact isFalse (fun hc => Except.noConfusion hc)
        | (rename_i a b
           exact match decEq a b with
             | isTrue h => isTrue (by rw [h])
             | isFalse h => isFalse (fun hc => h (by cases hc; rfl)))

/-- Model of `errors.Is`: the target is the error itself or appears after
unwrapping `wrap` layers. -/
def errIs : GoErr → GoErr → Bool
  | .wrap c inner, t => (GoErr.wrap c inner == t) || errIs inner t
  | e, t => e == t

/-- ASCII fragment of Go `unicode.IsSpace`, used by `strings.TrimSpace`. -/
def isSpaceGo (c : Char) : Bool :=
  c == ' ' || c == '\t' || c == '\n' || c == '\x0b' || c == '\x0c' || c == '\r'

/-- ASCII lowering of a single character, the fragment of Go
`strings.ToLower` relevant to the email alphabet. -/
def charLower (c : Char) : Char :=
  if 65 ≤ c.toNat ∧ c.toNat ≤ 90 then Char.ofNat (c.toNat + 32) else c

/-- Model of `strings.ToLower`. -/
def strLower (s : String) : String := ⟨s.data.map charLower⟩

/-- Trim of a character list on both ends. -/
def trimList (cs : List Char) : List Char :=
  ((cs.dropWhile isSpaceGo).reverse.dropWhile isSpaceGo).reverse

/-- Model of `strings.TrimSpace`. -/
def strTrim (s : String) : String := ⟨trimList s.data⟩

/-- Character class `[a-z0-9._%+\-]` (local part of the email regex). -/
def isLocalChar (c : Char) : Bool :=
  ('a' ≤ c && c ≤ 'z') || ('0' ≤ c && c ≤ '9') ||
    c == '.' || c == '_' || c == '%' || c == '+' || c == '-'

/-- Character class `[a-z0-9.\-]` (domain part of the email regex). -/
def isDomainChar (c : Char) : Bool :=
  ('a' ≤ c && c ≤ 'z') || ('0' ≤ c && c ≤ '9') || c == '.' || c == '-'

/-- Character class `[a-z]` (TLD part of the email regex). -/
def isTldChar (c : Char) : Bool := 'a' ≤ c && c ≤ 'z'

/-- Decision procedure for the anchored regex
`^[a-z0-9._%+\-]+@[a-z0-9.\-]+\.[a-z]{2,16}$` of `emailFormat`.
No character class contains `@`, so a match splits the string at its unique
`@`; the TLD consists only of letters and runs to the end of the string, so
the `\.` of the pattern is the last dot after the `@`. -/
def emailRegexMatch (s : String) : Bool :=
  let cs := s.data
  let localPart := cs.takeWhile (fun c => c ≠ '@')
  match cs.dropWhile (fun c => c ≠ '@') with
  | '@' :: domainAll =>
    (!localPart.isEmpty) && localPart.all isLocalChar &&
    domainAll.all (fun c => c ≠ '@') &&
    (let tld := (domainAll.reverse.takeWhile (fun c => c ≠ '.')).reverse
     match domainAll.reverse.dropWhile (fun c => c ≠ '.') with
     | '.' :: xr =>
       (!xr.isEmpty) && xr.all isDomainChar &&
         tld.all isTldChar && 2 ≤ tld.length && tld.length ≤ 16
     | _ => false)
  | _ => false

/-- Modelled from the spec: `goafweb/hash` (the Keyed Hasher, spec 4.2) is
not under src/.  A deterministic keyed hash with a non-empty output; the
tagged-concatenation model reflects determinism and collision resistance. -/
def hmacHash (key s : String) : String := "hmac(" ++ key ++ "," ++ s ++ ")"

/-- Model of `bcrypt.GenerateFromPassword` (external library): a
deterministic one-way function.  The real function is salted; only the
contract relating it to `CompareHashAndPassword` matters here. -/
def bcryptGenerate (s : String) : String := "bcrypt(" ++ s ++ ")"

/-- Model of `bcrypt.CompareHashAndPassword` (external library): succeeds
exactly when the hash is the hash of the supplied password.  The
malformed-stored-hash failure of the real library is not modelled. -/
def bcryptCompare (hash pw : String) : Bool := hash == bcryptGenerate pw

/-- goafweb.User.  `password` and `rememberToken` are tagged `gorm:"-"` in
the source and are never stored as columns; `deleted` models the gorm
soft-delete marker `DeletedAt`. -/
structure User where
  id : Int := 0
  name : String := ""
  email : String := ""
  password : String := ""
  passwordHash : String := ""
  rememberToken : String := ""
  rememberHash : String := ""
  deleted : Bool := false
  deriving Repr, DecidableEq

/-- goafweb.PwReset.  `token` is tagged `gorm:"-"`; `createdAt` is the gorm
`CreatedAt` timestamp in nanoseconds; `deleted` models `DeletedAt`. -/
structure PwReset where
  id : Int := 0
  userID : Int := 0
  token : String := ""
  tokenHash : String := ""
  createdAt : Int := 0
  deleted : Bool := false
  deriving Repr, DecidableEq

/-- The gorm database as seen through package storage: the two tables, the
auto-increment counter for password-reset rows, and an optional injected
gorm-level failure (`fail = some m` makes every gorm call fail with `m`,
which `checkErr` renders as a "Database error"). -/
structure Store where
  users : List User := []
  pwrs : List PwReset := []
  nextPwrId : Int := 1
  fail : Option String := none
  deriving Repr, DecidableEq

/-- The error `checkErr` produces for a gorm failure `m` that is not
record-not-found (`fmt.Errorf("Database error: %v", err)`). -/
def dbError (m : String) : GoErr := .msg ("Database error: " ++ m)

/-- userDB.GetByID: `First(&user, id)` filters soft-deleted rows;
record-not-found becomes `ErrNotFound` via `checkErr`. -/
def udbGetByID (st : Store) (id : Int) : Except GoErr User :=
  match st.fail with
  | some m => .error (dbError m)
  | none =>
    match st.users.find? (fun u => !u.deleted && u.id == id) with
    | some u => .ok u
    | none => .error .notFound

/-- userDB.GetByEmail: `Where("email = ?", email).First`. -/
def udbGetByEmail (st : Store) (email : String) : Except GoErr User :=
  match st.fail with
  | some m => .error (dbError m)
  | none =>
    match st.users.find? (fun u => !u.deleted && u.email == email) with
    | some u => .ok u
    | none => .error .notFound

/-- userDB.Create: inserts the record; the `gorm:"-"` fields `Password`
and `RememberToken` are not columns and are erased in the stored row. -/
def udbCreate (st : Store) (user : User) : Store × Except GoErr Unit :=
  match st.fail with
  | some m => (st, .error (dbError m))
  | none =>
    ({ st with users := st.users ++ [{ user with password := "", rememberToken := "" }] },
     .ok ())

/-- userDB.Update (`gorm.Save`): replaces the row with the same primary
key, again without the `gorm:"-"` fields. -/
def udbUpdate (st : Store) (user : User) : Store × Except GoErr Unit :=
  match st.fail with
  | some m => (st, .error (dbError m))
  | none =>
    ({ st with users := st.users.map (fun u =>
        if u.id == user.id then { user with password := "", rememberToken := "" } else u) },
     .ok ())

/-- Validation context of userValidator / pwResetValidator / userService:
the HMAC secret key and the password pepper. -/
structure UserValidator where
  hmacKey : String
  pwPepper : String
  deriving Repr, DecidableEq

/-- runUserValFuncs: first failing validation function short-circuits.
The Go functions mutate the record in place; here each one returns the
updated record. -/
def runUserValFuncs (user : User) : List (User → Except GoErr User) → Except GoErr User
  | [] => .ok user
  | f :: fns =>
    match f user with
    | .error e => .error e
    | .ok u => runUserValFuncs u fns

/-- The normalization `emailNormalize` applies to the email string:
`strings.TrimSpace` then `strings.ToLower`. -/
def normalizeEmail (s : String) : String := strLower (strTrim s)

/-- userValidator.emailNormalize: trim then lowercase. -/
def emailNormalize (user : User) : Except GoErr User :=
  .ok { user with email := normalizeEmail user.email }

/-- userValidator.emailRequired. -/
def emailRequired (user : User) : Except GoErr User :=
  if user.email = "" then .error (.msg "Email address is required") else .ok user

/-- userValidator.emailFormat. -/
def emailFormat (user : User) : Except GoErr User :=
  if emailRegexMatch user.email then .ok user
  else .error (.msg "Email is not a valid format")

/-- userValidator.GetByEmail: normalize / require / format-check the email,
wrap any failure as a validation error, then look up by the normalized
email. -/
def uvGetByEmail (uv : UserValidator) (st : Store) (email : String) :
    Except GoErr User :=
  match runUserValFuncs { email := email } [emailNormalize, emailRequired, emailFormat] with
  | .error e => .error (.wrap "Validation Error" e)
  | .ok u => udbGetByEmail st u.email

/-- userValidator.emailIsAvail: available only when the (validated) lookup
reports `ErrNotFound`; a found record is "taken", any other error is
propagated. -/
def emailIsAvail (uv : UserValidator) (st : Store) (user : User) :
    Except GoErr User :=
  match uvGetByEmail uv st user.email with
  | .error e => if errIs e .notFound then .ok user else .error e
  | .ok _ => .error (.msg "That email address is already taken")

/-- userValidator.passwordRequired (the source lowercases before the
emptiness test). -/
def passwordRequired (user : User) : Except GoErr User :=
  if strLower user.password = "" then .error (.msg "Password is required")
  else .ok user

/-- userValidator.passwordMinLength: Go `len` counts bytes. -/
def passwordMinLength (user : User) : Except GoErr User :=
  if user.password.utf8ByteSize < 8 then .error (.msg "Password is too short")
  else .ok user

/-- userValidator.passwordBcrypt: skip when no plaintext password is
supplied, otherwise hash password+pepper and clear the plaintext. -/
def passwordBcrypt (uv : UserValidator) (user : User) : Except GoErr User :=
  if user.password = "" then .ok user
  else .ok { user with
    passwordHash := bcryptGenerate (user.password ++ uv.pwPepper),
    password := "" }

/-- userValidator.passwordHashRequired. -/
def passwordHashRequired (user : User) : Except GoErr User :=
  if user.passwordHash = "" then .error (.msg "Password is required")
  else .ok user

/-- userValidator.setRememberToken: generate a token only when none is
supplied.  `tok` is the outcome of `rand.RememberToken()` (goafweb/rand is
not under src/; modelled from spec 4.1: `none` is an entropy failure). -/
def setRememberToken (tok : Option String) (user : User) : Except GoErr User :=
  if user.rememberToken ≠ "" then .ok user
  else
    match tok with
    | none => .error (.wrap "Unable to generate token" (.msg "could not generate token"))
    | some t => .ok { user with rememberToken := t }

/-- userValidator.rememberHashRequired: derive the hash from the plaintext
token when one is present, then require a non-empty hash. -/
def rememberHashRequired (uv : UserValidator) (user : User) : Except GoErr User :=
  let user := if user.rememberToken ≠ "" then
    { user with rememberHash := hmacHash uv.hmacKey user.rememberToken }
  else user
  if user.rememberHash = "" then .error (.msg "remember hash required")
  else .ok user

/-- userValidator.Create: the full validation chain in source order, the
failure wrapped as a validation error and aborting before any write; on
success the mutated in-memory record (Go mutates the caller's struct) is
returned alongside the updated store. -/
def uvCreate (uv : UserValidator) (st : Store) (user : User) (tok : Option String) :
    Store × Except GoErr User :=
  match runUserValFuncs user
      [emailNormalize, emailRequired, emailFormat, emailIsAvail uv st,
       passwordRequired, passwordMinLength, passwordBcrypt uv,
       passwordHashRequired, setRememberToken tok, rememberHashRequired uv] with
  | .error e => (st, .error (.wrap "Validation Error" e))
  | .ok u =>
    match udbCreate st u with
    | (st', .error e) => (st', .error e)
    | (st', .ok _) => (st', .ok u)

/-- userValidator.Update: password optional (passwordRequired and
passwordMinLength are not run), hash still mandatory. -/
def uvUpdate (uv : UserValidator) (st : Store) (user : User) :
    Store × Except GoErr User :=
  match runUserValFuncs user
      [emailNormalize, emailRequired, emailFormat, passwordBcrypt uv,
       passwordHashRequired, rememberHashRequired uv] with
  | .error e => (st, .error (.wrap "Validation Error" e))
  | .ok u =>
    match udbUpdate st u with
    | (st', .error e) => (st', .error e)
    | (st', .ok _) => (st', .ok u)

/-- userValidator.GetByID: requires a positive ID before the lookup. -/
def uvGetByID (uv : UserValidator) (st : Store) (id : Int) : Except GoErr User :=
  if id ≤ 0 then .error (.wrap "Validation Error" (.msg "Invalid ID"))
  else udbGetByID st id

/-- runPWResetValFuncs, the password-reset counterpart of
`runUserValFuncs`. -/
def runPWResetValFuncs (pwr : PwReset) :
    List (PwReset → Except GoErr PwReset) → Except GoErr PwReset
  | [] => .ok pwr
  | f :: fns =>
    match f pwr with
    | .error e => .error e
    | .ok p => runPWResetValFuncs p fns

/-- pwResetValidator.idRequired: the owning user ID must be positive. -/
def pwrIdRequired (pwr : PwReset) : Except GoErr PwReset :=
  if pwr.userID ≤ 0 then .error (.msg "ID Invalid") else .ok pwr

/-- pwResetValidator.tokenHashRequired: derive the hash from the plaintext
token only when the record carries no hash; with neither hash nor token,
fail. -/
def pwrTokenHashRequired (uv : UserValidator) (pwr : PwReset) :
    Except GoErr PwReset :=
  if pwr.tokenHash = "" then
    if pwr.token ≠ "" then .ok { pwr with tokenHash := hmacHash uv.hmacKey pwr.token }
    else .error (.msg "Remember Hash is required")
  else .ok pwr

/-- pwResetDB.GetByToken: `Where("token_hash = ?", tokenHash).First`. -/
def pwrdbGetByToken (st : Store) (tokenHash : String) : Except GoErr PwReset :=
  match st.fail with
  | some m => .error (dbError m)
  | none =>
    match st.pwrs.find? (fun r => !r.deleted && r.tokenHash == tokenHash) with
    | some r => .ok r
    | none => .error .notFound

/-- pwResetDB.Create: gorm assigns the primary key and `CreatedAt`; the
`gorm:"-"` field `Token` is not a column and is erased in the stored row.
The mutated in-memory record (ID and CreatedAt set, Token still present)
is returned as Go mutates the caller's struct. -/
def pwrdbCreate (st : Store) (pwr : PwReset) (now : Int) :
    Store × Except GoErr PwReset :=
  match st.fail with
  | some m => (st, .error (dbError m))
  | none =>
    let assigned := { pwr with id := st.nextPwrId, createdAt := now }
    ({ st with
        pwrs := st.pwrs ++ [{ assigned with token := "" }],
        nextPwrId := st.nextPwrId + 1 },
     .ok assigned)

/-- pwResetDB.Delete: gorm soft delete of the row with the given ID. -/
def pwrdbDelete (st : Store) (id : Int) : Store × Except GoErr Unit :=
  match st.fail with
  | some m => (st, .error (dbError m))
  | none =>
    ({ st with pwrs := st.pwrs.map (fun r =>
        if r.id == id then { r with deleted := true } else r) },
     .ok ())

/-- pwResetValidator.GetByToken: derive the hash from the supplied
plaintext token, then query by hash (never by plaintext). -/
def pwrvGetByToken (uv : UserValidator) (st : Store) (token : String) :
    Except GoErr PwReset :=
  match runPWResetValFuncs { token := token } [pwrTokenHashRequired uv] with
  | .error e => .error (.wrap "Validation Error" e)
  | .ok pwr => pwrdbGetByToken st pwr.tokenHash

/-- pwResetValidator.Create: generate a fresh plaintext token, overwrite
the record's Token with it, then require a positive owning user ID and a
token hash before persisting.  `tok` is the outcome of
`rand.RememberToken()` (modelled from spec 4.1). -/
def pwrvCreate (uv : UserValidator) (st : Store) (pwr : PwReset)
    (tok : Option String) (now : Int) : Store × Except GoErr PwReset :=
  match tok with
  | none => (st, .error (.wrap "Unable to create reset token" (.msg "could not generate token")))
  | some t =>
    let pwr := { pwr with token := t }
    match runPWResetValFuncs pwr [pwrIdRequired, pwrTokenHashRequired uv] with
    | .error e => (st, .error (.wrap "Validation Error" e))
    | .ok pwr' => pwrdbCreate st pwr' now

/-- pwResetValidator.Delete: requires a positive ID. -/
def pwrvDelete (st : Store) (id : Int) : Store × Except GoErr Unit :=
  if id ≤ 0 then (st, .error (.msg "Invalid ID"))
  else pwrdbDelete st id

/-- userService.Authenticate: look the user up by email (failures wrapped),
then compare the stored hash against password+pepper; a bcrypt mismatch is
the sentinel `ErrPWInvalid`. -/
def usAuthenticate (uv : UserValidator) (st : Store) (email password : String) :
    Except GoErr User :=
  match uvGetByEmail uv st email with
  | .error e => .error (.wrap "Could not retreive user: " e)
  | .ok user =>
    if bcryptCompare user.passwordHash (password ++ uv.pwPepper) then .ok user
    else .error .pwInvalid

/-- userService.InitiatePWReset: look the user up by email, create a reset
record carrying only the user's ID, and hand the generated plaintext token
back to the caller. -/
def usInitiatePWReset (uv : UserValidator) (st : Store) (email : String)
    (tok : Option String) (now : Int) : Store × Except GoErr String :=
  match uvGetByEmail uv st email with
  | .error e => (st, .error (.wrap "Could not retreive user: " e))
  | .ok user =>
    match pwrvCreate uv st { userID := user.id } tok now with
    | (st', .error e) => (st', .error (.wrap "Unable to create reset token: " e))
    | (st', .ok pwr) => (st', .ok pwr.token)

/-- The 12-hour reset-token validity window, in nanoseconds
(`12 * time.Hour`). -/
def twelveHours : Int := 12 * 3600 * 1000000000

/-- userService.CompletePWReset: look the reset record up by token, reject
when more than 12 hours old, otherwise re-hash the new password through the
update chain and best-effort delete the consumed record (a deletion failure
is swallowed). -/
def usCompletePWReset (uv : UserValidator) (st : Store) (token newPw : String)
    (now : Int) : Store × Except GoErr User :=
  match pwrvGetByToken uv st token with
  | .error e => (st, .error (.wrap "Unble to retreive reset data: " e))
  | .ok pwr =>
    if now - pwr.createdAt > twelveHours then
      (st, .error (.msg "Token no longer valid"))
    else
      match uvGetByID uv st pwr.userID with
      | .error e => (st, .error (.wrap "Unable to reset password: " e))
      | .ok user =>
        match uvUpdate uv st { user with password := newPw } with
        | (st', .error e) => (st', .error (.wrap "Unable to reset password: " e))
        | (st', .ok user') => ((pwrvDelete st' pwr.id).1, .ok user')

/-- The error classification of the HTTP Login handler: a `NotFound` or
`PWInvalid` outcome from Authenticate is replaced by the single
`ErrAuth` value so the response does not reveal whether the email exists;
any other error passes through. -/
def loginErrorResponse (e : GoErr) : GoErr :=
  if errIs e .notFound || errIs e .pwInvalid then .errAuth else e

/-- Create as the spec (§4.4) words it: an explicit ordered pipeline of
checks over the draft record — normalize email, require non-empty email,
require the RFC-shaped regex, require the email not already registered
(not-found is the only passing lookup outcome), require non-empty
password, require length ≥ 8, hash the password and clear the plaintext,
require the resulting hash non-empty, generate a remember token if none
supplied, derive its hash, require that hash non-empty — where the first
failing step aborts with a wrapped validation error and nothing is
written on failure.  To be compared against `uvCreate`. -/
def createSpec (uv : UserValidator) (st : Store) (user : User) (tok : Option String) :
    Store × Except GoErr User :=
  let valFail : GoErr → Store × Except GoErr User :=
    fun e => (st, .error (.wrap "Validation Error" e))
  let e := normalizeEmail user.email
  let u := { user with email := e }
  if e = "" then valFail (.msg "Email address is required")
  else if ¬emailRegexMatch e then valFail (.msg "Email is not a valid format")
  else
    match uvGetByEmail uv st e with
    | .ok _ => valFail (.msg "That email address is already taken")
    | .error le =>
      if ¬errIs le .notFound then valFail le
      else if u.password = "" then valFail (.msg "Password is required")
      else if u.password.utf8ByteSize < 8 then valFail (.msg "Password is too short")
      else
        let u := { u with
          passwordHash := bcryptGenerate (u.password ++ uv.pwPepper), password := "" }
        if u.passwordHash = "" then valFail (.msg "Password is required")
        else
          match (if user.rememberToken = "" then tok else some user.rememberToken) with
          | none => valFail (.wrap "Unable to generate token" (.msg "could not generate token"))
          | some rt =>
            let u := { u with rememberToken := rt }
            let u := if rt = "" then u
              else { u with rememberHash := hmacHash uv.hmacKey rt }
            if u.rememberHash = "" then valFail (.msg "remember hash required")
            else
              match udbCreate st u with
              | (st', .error e2) => (st', .error e2)
              | (st', .ok _) => (st', .ok u)

/-! ### Helper lemmas -/

/-- Projecting `Char.ofNat` back to `Nat` below the surrogate range. -/
theorem charToNat_ofNat_lt {n : Nat} (h : n < 55296) : (Char.ofNat n).toNat = n := by
  unfold Char.ofNat
  rw [dif_pos (Or.inl h)]
  simp [Char.ofNatAux, Char.toNat, UInt32.toNat, BitVec.toNat_ofNatLt]

/-- ASCII lowering is idempotent. -/
theorem charLower_idem (c : Char) : charLower (charLower c) = charLower c := by
  unfold charLower
  by_cases h : 65 ≤ c.toNat ∧ c.toNat ≤ 90
  · rw [if_pos h]
    have h32 : (Char.ofNat (c.toNat + 32)).toNat = c.toNat + 32 :=
      charToNat_ofNat_lt (by omega)
    rw [if_neg (by rw [h32]; omega)]
  · rw [if_neg h, if_neg h]

/-- Characters outside the control/space range are not Go whitespace. -/
theorem isSpaceGo_false_of_range {c : Char} (h14 : 14 ≤ c.toNat) (h32 : c.toNat ≠ 32) :
    isSpaceGo c = false := by
  unfold isSpaceGo
  have hs : c ≠ ' ' := fun hEq => by subst hEq; exact h32 rfl
  have ht : c ≠ '\t' := fun hEq => by subst hEq; exact absurd h14 (by decide)
  have hn : c ≠ '\n' := fun hEq => by subst hEq; exact absurd h14 (by decide)
  have hv : c ≠ '\x0b' := fun hEq => by subst hEq; exact absurd h14 (by decide)
  have hf : c ≠ '\x0c' := fun hEq => by subst hEq; exact absurd h14 (by decide)
  have hr : c ≠ '\r' := fun hEq => by subst hEq; exact absurd h14 (by decide)
  simp [hs, ht, hn, hv, hf, hr]

/-- ASCII lowering does not change whether a character is whitespace. -/
theorem isSpaceGo_charLower (c : Char) : isSpaceGo (charLower c) = isSpaceGo c := by
  unfold charLower
  by_cases h : 65 ≤ c.toNat ∧ c.toNat ≤ 90
  · rw [if_pos h]
    have h32 : (Char.ofNat (c.toNat + 32)).toNat = c.toNat + 32 :=
      charToNat_ofNat_lt (by omega)
    rw [isSpaceGo_false_of_range (by omega) (by omega),
      isSpaceGo_false_of_range (by omega) (by omega)]
  · rw [if_neg h]

/-- Two-sided trimming is idempotent. -/
theorem trimList_idem (l : List Char) : trimList (trimList l) = trimList l := by
  have htrim : ∀ x : List Char, trimList x = (x.dropWhile isSpaceGo).rdropWhile isSpaceGo :=
    fun x => by simp [trimList, List.rdropWhile]
  rw [htrim l, htrim]
  have hBd : ((l.dropWhile isSpaceGo).rdropWhile isSpaceGo).dropWhile isSpaceGo
      = (l.dropWhile isSpaceGo).rdropWhile isSpaceGo := by
    obtain ⟨t, ht⟩ := List.rdropWhile_prefix isSpaceGo (l.dropWhile isSpaceGo)
    cases hBc : (l.dropWhile isSpaceGo).rdropWhile isSpaceGo with
    | nil => rfl
    | cons b bs =>
      rw [hBc] at ht
      have h0 : 0 < (l.dropWhile isSpaceGo).length := by rw [← ht]; simp
      have h1 := List.dropWhile_get_zero_not isSpaceGo l h0
      have hget : (l.dropWhile isSpaceGo).get ⟨0, h0⟩ = b := by
        simp [← ht]
      have hpb : isSpaceGo b = false := by
        rw [hget] at h1
        simpa using h1
      simp [List.dropWhile_cons, hpb]
  rw [hBd]
  exact List.rdropWhile_idempotent isSpaceGo _

/-- Trimming commutes with ASCII lowering. -/
theorem trimList_map_charLower (l : List Char) :
    trimList (l.map charLower) = (trimList l).map charLower := by
  have hcomp : (isSpaceGo ∘ charLower) = isSpaceGo := funext isSpaceGo_charLower
  unfold trimList
  rw [List.dropWhile_map, hcomp,
    show (List.map charLower (l.dropWhile isSpaceGo)).reverse
        = List.map charLower (l.dropWhile isSpaceGo).reverse from by
      simp [List.map_reverse],
    List.dropWhile_map, hcomp]
  simp [List.map_reverse]

/-- Email normalization is idempotent. -/
theorem normalizeEmail_idem (s : String) :
    normalizeEmail (normalizeEmail s) = normalizeEmail s := by
  apply String.ext
  have hq : charLower ∘ charLower = charLower := funext charLower_idem
  simp only [normalizeEmail, strLower, strTrim]
  simp [trimList_map_charLower, trimList_idem, List.map_map, hq]

/-- Lowering produces the empty string only from the empty string. -/
theorem strLower_eq_empty {s : String} : strLower s = "" ↔ s = "" := by
  constructor
  · intro h
    have hd := congrArg String.data h
    simp only [strLower] at hd
    exact String.ext (by simpa using hd)
  · intro h; subst h; rfl

/-- A find? over a list returns the designated element when it is the
only one satisfying the predicate. -/
theorem find?_eq_some_of_unique {α : Type} (p : α → Bool) (l : List α) (r : α)
    (hmem : r ∈ l) (hp : p r = true) (huniq : ∀ x ∈ l, p x = true → x = r) :
    l.find? p = some r := by
  induction l with
  | nil => cases hmem
  | cons a as ih =>
    by_cases hpa : p a = true
    · have ha : a = r := huniq a (List.mem_cons_self a as) hpa
      rw [List.find?_cons_of_pos _ hpa, ha]
    · rw [List.find?_cons_of_neg _ hpa]
      have hmem' : r ∈ as := by
        rcases List.mem_cons.mp hmem with h | h
        · exact absurd (h ▸ hp) hpa
        · exact h
      exact ih hmem' (fun x hx hpx => huniq x (List.mem_cons_of_mem a hx) hpx)

/-- Right cancellation for string concatenation. -/
theorem strApp_right_cancel {a b c : String} (h : a ++ c = b ++ c) : a = b := by
  apply String.ext
  have hd := congrArg String.data h
  rw [String.data_append, String.data_append] at hd
  exact List.append_cancel_right hd

/-- Left cancellation for string concatenation. -/
theorem strApp_left_cancel {a b c : String} (h : a ++ b = a ++ c) : b = c := by
  apply String.ext
  have hd := congrArg String.data h
  rw [String.data_append, String.data_append] at hd
  exact List.append_cancel_left hd

/-- The bcrypt model is collision-free. -/
theorem bcryptGenerate_inj {x y : String} (h : bcryptGenerate x = bcryptGenerate y) :
    x = y := by
  unfold bcryptGenerate at h
  exact strApp_left_cancel (strApp_right_cancel h)

/-- The keyed-hash model never produces an empty string. -/
theorem hmacHash_ne_empty (k s : String) : hmacHash k s ≠ "" := by
  intro h
  have hlen := congrArg String.length h
  simp only [hmacHash, String.length_append] at hlen
  have h1 : "hmac(".length = 5 := by decide
  have h2 : ",".length = 1 := by decide
  have h3 : ")".length = 1 := by decide
  have h4 : "".length = 0 := by decide
  omega

/-- The bcrypt model never produces an empty hash. -/
theorem bcryptGenerate_ne_empty (s : String) : bcryptGenerate s ≠ "" := by
  intro h
  have hlen := congrArg String.length h
  simp only [bcryptGenerate, String.length_append] at hlen
  have h1 : "bcrypt(".length = 7 := by decide
  have h2 : ")".length = 1 := by decide
  have h3 : "".length = 0 := by decide
  omega

/-- The chain of `uvCreate` agrees with the spec-side pipeline
`createSpec` on every input: helper form shared by several claims. -/
theorem uvCreate_eq_createSpec (uv : UserValidator) (st : Store) (user : User)
    (tok : Option String) : uvCreate uv st user tok = createSpec uv st user tok := by
  simp only [uvCreate, createSpec, runUserValFuncs, emailNormalize, emailRequired,
    emailFormat, emailIsAvail, passwordRequired, passwordMinLength, passwordBcrypt,
    passwordHashRequired, setRememberToken, rememberHashRequired]
  by_cases h1 : normalizeEmail user.email = ""
  · simp [h1]
  · simp only [h1, if_false, ite_false, if_neg h1]
    by_cases h2 : emailRegexMatch (normalizeEmail user.email) = true
    · simp only [h2, if_true, ite_true, if_pos h2, not_true, Bool.not_eq_true]
      cases hLook : uvGetByEmail uv st (normalizeEmail user.email) with
      | ok w => simp [hLook]
      | error le =>
        simp only [hLook]
        by_cases h4 : errIs le .notFound = true
        · simp only [h4, if_true, ite_true, not_true]
          by_cases h5 : user.password = ""
          · have h5' : strLower user.password = "" := strLower_eq_empty.mpr h5
            simp [h5, h5', show strLower "" = "" from rfl]
          · have h5' : ¬(strLower user.password = "") := fun hc => h5 (strLower_eq_empty.mp hc)
            simp only [h5, h5', if_neg, ite_false]
            by_cases h6 : user.password.utf8ByteSize < 8
            · simp [h6]
            · simp only [h6, if_neg, ite_false]
              have hb := bcryptGenerate_ne_empty (user.password ++ uv.pwPepper)
              by_cases h9 : user.rememberToken = ""
              · simp only [h9, if_pos, ite_true, ne_eq, not_true, not_false_iff]
                cases tok with
                | none => simp [h5, h9, hb]
                | some t =>
                  by_cases h10 : t = ""
                  · by_cases h11 : user.rememberHash = "" <;>
                      simp [h5, h9, h10, h11, hb]
                  · have hh := hmacHash_ne_empty uv.hmacKey t
                    simp [h5, h9, h10, hb, hh]
              · have hh := hmacHash_ne_empty uv.hmacKey user.rememberToken
                simp [h5, h9, hb, hh]
        · simp [h4]
    · simp [h2]

/-- A validation failure of Create leaves the store untouched. -/
theorem uvCreate_validation_error_frame (uv : UserValidator) (st : Store)
    (user : User) (tok : Option String) (st' : Store) (e : GoErr)
    (h : uvCreate uv st user tok = (st', .error (.wrap "Validation Error" e))) :
    st' = st := by
  unfold uvCreate at h
  split at h
  · exact (congrArg Prod.fst h).symm
  · unfold udbCreate at h
    cases hfail : st.fail with
    | some m => simp [hfail, dbError] at h
    | none => simp [hfail] at h

/-- Inversion of the persistence tail of `createSpec`: reaching the write
and succeeding means the store was healthy, the returned record is the
chain's final record, and exactly one row (without the `gorm:"-"` fields)
was appended. -/
theorem createTail_ok_inv (st : Store) (F : User) (st' : Store) (u : User)
    (h : (match udbCreate st F with
          | (st2, Except.error e2) => (st2, (Except.error e2 : Except GoErr User))
          | (st2, Except.ok _) => (st2, Except.ok F)) = (st', Except.ok u)) :
    st.fail = none ∧ u = F
    ∧ st' = { st with users := st.users ++ [{ F with password := "", rememberToken := "" }] } := by
  unfold udbCreate at h
  cases hfail : st.fail with
  | some m => simp [hfail] at h
  | none =>
    simp only [hfail] at h
    have hfst := congrArg Prod.fst h
    have hsnd := congrArg Prod.snd h
    simp at hfst hsnd
    exact ⟨rfl, hsnd.symm, hfst.symm⟩

/-- A failing validated email lookup over a healthy store for a valid,
normalized email can only be the not-found outcome. -/
theorem lookup_error_is_notFound (uv : UserValidator) (st : Store) (E : String)
    (le : GoErr) (hE : normalizeEmail E = E) (h1 : E ≠ "")
    (h2 : emailRegexMatch E = true) (hfail : st.fail = none)
    (hLook : uvGetByEmail uv st E = .error le) :
    uvGetByEmail uv st E = .error .notFound := by
  have hGE : uvGetByEmail uv st E = udbGetByEmail st E := by
    simp [uvGetByEmail, runUserValFuncs, emailNormalize, emailRequired, emailFormat,
      hE, h1, h2]
  rw [hGE] at hLook ⊢
  simp only [udbGetByEmail, hfail] at hLook ⊢
  cases hfind : st.users.find? (fun x => !x.deleted && x.email == E) with
  | some w => simp [hfind] at hLook
  | none => simp [hfind]

/-- Inversion of a successful Create: every check of the chain passed —
the normalized email is non-empty, well-formed and was not found, the
password was hashed and the plaintext cleared, both hashes are non-empty —
and the store gained exactly the one new row. -/
theorem uvCreate_ok_inv (uv : UserValidator) (st : Store) (user : User)
    (tok : Option String) (st' : Store) (u : User)
    (h : uvCreate uv st user tok = (st', .ok u)) :
    st.fail = none
    ∧ normalizeEmail user.email ≠ ""
    ∧ emailRegexMatch (normalizeEmail user.email) = true
    ∧ uvGetByEmail uv st (normalizeEmail user.email) = .error .notFound
    ∧ u.email = normalizeEmail user.email
    ∧ u.password = ""
    ∧ u.passwordHash ≠ ""
    ∧ u.rememberHash ≠ ""
    ∧ u.deleted = user.deleted
    ∧ st' = { st with users := st.users ++ [{ u with password := "", rememberToken := "" }] } := by
  rw [uvCreate_eq_createSpec] at h
  simp only [createSpec] at h
  by_cases h1 : normalizeEmail user.email = ""
  · simp [h1] at h
  · by_cases h2 : emailRegexMatch (normalizeEmail user.email) = true
    · cases hLook : uvGetByEmail uv st (normalizeEmail user.email) with
      | ok w => simp [h1, h2, hLook] at h
      | error le =>
        by_cases h4 : errIs le .notFound = true
        · by_cases h5 : user.password = ""
          · simp [h1, h2, hLook, h4, h5] at h
          · by_cases h6 : user.password.utf8ByteSize < 8
            · simp [h1, h2, hLook, h4, h5, h6] at h
            · have hb := bcryptGenerate_ne_empty (user.password ++ uv.pwPepper)
              by_cases h9 : user.rememberToken = ""
              · cases tok with
                | none => simp [h1, h2, hLook, h4, h5, h6, h9, hb] at h
                | some rt =>
                  by_cases h10 : rt = ""
                  · by_cases h11 : user.rememberHash = ""
                    · simp [h1, h2, hLook, h4, h5, h6, h9, h10, h11, hb] at h
                    · simp only [h1, h2, hLook] at h
                      simp [h4, h5, h6, h9, h10, h11, hb] at h
                      obtain ⟨hfail, hu, hst⟩ := createTail_ok_inv st _ st' u h
                      subst hu
                      subst hst
                      exact ⟨hfail, h1, h2,
                        (by rw [← hLook]
                            exact lookup_error_is_notFound uv st _ le
                              (normalizeEmail_idem _) h1 h2 hfail hLook),
                        rfl, rfl, hb, h11, rfl, rfl⟩
                  · have hh := hmacHash_ne_empty uv.hmacKey rt
                    simp only [h1, h2, hLook] at h
                    simp [h4, h5, h6, h9, h10, hb, hh] at h
                    obtain ⟨hfail, hu, hst⟩ := createTail_ok_inv st _ st' u h
                    subst hu
                    subst hst
                    exact ⟨hfail, h1, h2,
                      (by rw [← hLook]
                          exact lookup_error_is_notFound uv st _ le
                            (normalizeEmail_idem _) h1 h2 hfail hLook),
                      rfl, rfl, hb, hh, rfl, rfl⟩
              · have hh := hmacHash_ne_empty uv.hmacKey user.rememberToken
                simp only [h1, h2, hLook] at h
                simp [h4, h5, h6, h9, hb, hh] at h
                obtain ⟨hfail, hu, hst⟩ := createTail_ok_inv st _ st' u h
                subst hu
                subst hst
                exact ⟨hfail, h1, h2,
                  (by rw [← hLook]
                      exact lookup_error_is_notFound uv st _ le
                        (normalizeEmail_idem _) h1 h2 hfail hLook),
                  rfl, rfl, hb, hh, rfl, rfl⟩
        · simp [h1, h2, hLook, h4] at h
    · simp [h1, h2] at h

/-- C1: for a stored, non-deleted password-reset record `r` whose token
hash is the keyed hash of the plaintext token `t` (token hashes being
unique among live records, as the schema's unique index guarantees), if
more than 12 hours have passed since the record's creation then
CompletePWReset rejects with exactly the expiry error
"Token no longer valid" — not any other error — and leaves the whole
store, in particular every user's PasswordHash, unchanged. -/
theorem completePWReset_expired_rejects
    (uv : UserValidator) (st : Store) (r : PwReset) (t newPw : String) (now : Int)
    (hfail : st.fail = none)
    (hmem : r ∈ st.pwrs) (hdel : r.deleted = false)
    (huniq : ∀ r' ∈ st.pwrs, r'.deleted = false → r'.tokenHash = r.tokenHash → r' = r)
    (ht : t ≠ "") (hhash : hmacHash uv.hmacKey t = r.tokenHash)
    (hexp : now - r.createdAt > twelveHours) :
    usCompletePWReset uv st t newPw now = (st, .error (.msg "Token no longer valid")) := by
  have hfind : st.pwrs.find? (fun x => !x.deleted && x.tokenHash == r.tokenHash) = some r := by
    apply find?_eq_some_of_unique _ _ _ hmem
    · simp [hdel]
    · intro x hx hpx
      simp only [Bool.and_eq_true, Bool.not_eq_true', beq_iff_eq] at hpx
      exact huniq x hx hpx.1 hpx.2
  unfold usCompletePWReset pwrvGetByToken pwrTokenHashRequired
  simp [runPWResetValFuncs, ht, pwrdbGetByToken, hfail, hhash, hfind, hexp]

/-- C1 witness data: a reset record created at time 0. -/
def uvW : UserValidator := { hmacKey := "key", pwPepper := "pep" }

/-- C1 witness data: the stored expired reset record. -/
def pwrW : PwReset := { id := 1, userID := 1, tokenHash := hmacHash "key" "tk", createdAt := 0 }

/-- C1 witness data: a store holding only that record. -/
def stW1 : Store := { pwrs := [pwrW] }

/-- C1 witness: a concrete 12-hour-stale token is rejected with the expiry
error and the store is untouched. -/
theorem completePWReset_expired_rejects_witness :
    usCompletePWReset uvW stW1 "tk" "newpassword1" (twelveHours + 1)
      = (stW1, .error (.msg "Token no longer valid")) :=
  completePWReset_expired_rejects uvW stW1 pwrW "tk" "newpassword1" (twelveHours + 1)
    rfl (by decide) rfl (by decide) (by decide) rfl (by decide)

/-- C2 data: a stored user whose password is "password1" under pepper
"pep". -/
def userW2 : User :=
  { id := 1, email := "a@b.com",
    passwordHash := bcryptGenerate ("password1" ++ "pep"), rememberHash := "rh" }

/-- C2 data: a store holding only that user. -/
def stW2 : Store := { users := [userW2] }

/-- C2 counterexample: at the orchestrator (Authenticate) boundary the
wrong-password outcome and the unknown-email outcome are NOT the same
error value — `ErrPWInvalid` versus a wrapped `ErrNotFound`. -/
theorem authenticate_errors_differ_counterexample :
    usAuthenticate uvW stW2 "a@b.com" "wrongpass1" = .error .pwInvalid
    ∧ usAuthenticate uvW stW2 "c@d.com" "wrongpass1"
        = .error (.wrap "Could not retreive user: " .notFound)
    ∧ (Except.error GoErr.pwInvalid : Except GoErr User)
        ≠ (Except.error (GoErr.wrap "Could not retreive user: " GoErr.notFound) :
            Except GoErr User) := by
  refine ⟨by decide, by decide, by decide⟩

/-- C2 (amended): Authenticate with a correct email and wrong password
fails with the sentinel `ErrPWInvalid`, while an email with no stored user
fails with a wrapped `ErrNotFound`; the two error values differ at the
orchestrator boundary, and it is the HTTP Login handler's error
classification that maps both onto the single `ErrAuth` value, making
them indistinguishable to the caller. -/
theorem authenticate_mismatch_vs_missing
    (uv : UserValidator) (st : Store) (E P P' E2 pw2 : String) (u : User)
    (hfound : uvGetByEmail uv st E = .ok u)
    (hhash : u.passwordHash = bcryptGenerate (P ++ uv.pwPepper))
    (hne : P' ≠ P)
    (hmissing : uvGetByEmail uv st E2 = .error .notFound) :
    usAuthenticate uv st E P' = .error .pwInvalid
    ∧ usAuthenticate uv st E2 pw2 = .error (.wrap "Could not retreive user: " .notFound)
    ∧ loginErrorResponse .pwInvalid = .errAuth
    ∧ loginErrorResponse (.wrap "Could not retreive user: " .notFound) = .errAuth := by
  refine ⟨?_, ?_, by decide, by decide⟩
  · unfold usAuthenticate
    rw [hfound]
    have hcmp : bcryptCompare u.passwordHash (P' ++ uv.pwPepper) = false := by
      unfold bcryptCompare
      rw [hhash]
      simp only [beq_eq_false_iff_ne]
      intro hEq
      exact hne (strApp_right_cancel (bcryptGenerate_inj hEq)).symm
    simp [hcmp]
  · unfold usAuthenticate
    rw [hmissing]

/-- C2 witness: the amended behaviour at the concrete store. -/
theorem authenticate_mismatch_vs_missing_witness :
    usAuthenticate uvW stW2 "a@b.com" "wrongpass1" = .error .pwInvalid
    ∧ usAuthenticate uvW stW2 "c@d.com" "pw" = .error (.wrap "Could not retreive user: " .notFound)
    ∧ loginErrorResponse .pwInvalid = .errAuth
    ∧ loginErrorResponse (.wrap "Could not retreive user: " .notFound) = .errAuth :=
  authenticate_mismatch_vs_missing uvW stW2 "a@b.com" "password1" "wrongpass1"
    "c@d.com" "pw" userW2 (by decide) rfl (by decide) (by decide)

/-- The validation error GetByEmail produces for a syntactically invalid
email: the required-error when normalization leaves nothing, otherwise the
format error. -/
def invalidEmailErr (email : String) : GoErr :=
  if normalizeEmail email = "" then .msg "Email address is required"
  else .msg "Email is not a valid format"

/-- C9: for an email that is empty after normalization or fails the
format regex, GetByEmail returns a wrapped validation error without
consulting the persistence layer (the result is independent of the
store), never the not-found outcome; consequently Authenticate fails with
that error wrapped again, which is neither the not-found nor the
credential-mismatch outcome. -/
theorem getByEmail_invalid_is_validation
    (uv : UserValidator) (st st2 : Store) (email pw : String)
    (hbad : normalizeEmail email = "" ∨ emailRegexMatch (normalizeEmail email) = false) :
    uvGetByEmail uv st email
        = .error (.wrap "Validation Error" (invalidEmailErr email))
    ∧ uvGetByEmail uv st email = uvGetByEmail uv st2 email
    ∧ errIs (.wrap "Validation Error" (invalidEmailErr email)) .notFound = false
    ∧ usAuthenticate uv st email pw
        = .error (.wrap "Could not retreive user: "
            (.wrap "Validation Error" (invalidEmailErr email)))
    ∧ errIs (.wrap "Could not retreive user: "
        (.wrap "Validation Error" (invalidEmailErr email))) .notFound = false
    ∧ errIs (.wrap "Could not retreive user: "
        (.wrap "Validation Error" (invalidEmailErr email))) .pwInvalid = false := by
  by_cases hn : normalizeEmail email = ""
  · refine ⟨?_, ?_, ?_, ?_, ?_, ?_⟩ <;>
      simp [uvGetByEmail, usAuthenticate, runUserValFuncs, emailNormalize,
        emailRequired, emailFormat, hn, invalidEmailErr, errIs]
  · have hfmt : emailRegexMatch (normalizeEmail email) = false := by
      rcases hbad with h | h
      · exact absurd h hn
      · exact h
    refine ⟨?_, ?_, ?_, ?_, ?_, ?_⟩ <;>
      simp [uvGetByEmail, usAuthenticate, runUserValFuncs, emailNormalize,
        emailRequired, emailFormat, hn, hfmt, invalidEmailErr, errIs]

/-- C9 witness: the concrete invalid email "bad" behaves as stated. -/
theorem getByEmail_invalid_is_validation_witness :
    uvGetByEmail uvW stW2 "bad"
        = .error (.wrap "Validation Error" (invalidEmailErr "bad"))
    ∧ uvGetByEmail uvW stW2 "bad" = uvGetByEmail uvW stW1 "bad"
    ∧ errIs (.wrap "Validation Error" (invalidEmailErr "bad")) .notFound = false
    ∧ usAuthenticate uvW stW2 "bad" "pw"
        = .error (.wrap "Could not retreive user: "
            (.wrap "Validation Error" (invalidEmailErr "bad")))
    ∧ errIs (.wrap "Could not retreive user: "
        (.wrap "Validation Error" (invalidEmailErr "bad"))) .notFound = false
    ∧ errIs (.wrap "Could not retreive user: "
        (.wrap "Validation Error" (invalidEmailErr "bad"))) .pwInvalid = false :=
  getByEmail_invalid_is_validation uvW stW2 stW1 "bad" "pw" (by decide)

/-- C3: Create runs exactly the ordered validation chain of the spec:
`uvCreate` coincides with the spec-side pipeline `createSpec` on every
input (same first-failing-step error wrapped with the "Validation Error"
marker, same success outcome), and a validation failure leaves the store
unchanged — no write happens on any failing chain. -/
theorem create_runs_ordered_chain (uv : UserValidator) (st : Store) (user : User)
    (tok : Option String) :
    uvCreate uv st user tok = createSpec uv st user tok
    ∧ ∀ st' e, uvCreate uv st user tok = (st', .error (.wrap "Validation Error" e)) →
        st' = st :=
  ⟨uvCreate_eq_createSpec uv st user tok,
   fun st' e h => uvCreate_validation_error_frame uv st user tok st' e h⟩

/-- Witness data: the empty store. -/
def stEmpty : Store := {}

/-- Witness data: a signup whose password is too short. -/
def userShort : User := { email := "a@b.com", password := "short" }

/-- C3 witness: at a concrete failing input the chain equals the spec
pipeline and the store is left unchanged. -/
theorem create_runs_ordered_chain_witness :
    uvCreate uvW stEmpty userShort (some "t")
      = createSpec uvW stEmpty userShort (some "t")
    ∧ stEmpty = stEmpty :=
  ⟨(create_runs_ordered_chain uvW stEmpty userShort (some "t")).1,
   (create_runs_ordered_chain uvW stEmpty userShort (some "t")).2 stEmpty
     (.msg "Password is too short") (by decide)⟩

/-- C4 (amended): every row Create persists has non-empty PasswordHash
and RememberHash, and the stored row carries neither plaintext (the
`gorm:"-"` columns are erased); the in-memory record's plaintext Password
is cleared by the hashing step, but its RememberToken is NOT cleared — it
still holds the (possibly generated) plaintext token after Create. -/
theorem create_success_hashes_nonempty (uv : UserValidator) (st st' : Store)
    (user u : User) (tok : Option String)
    (h : uvCreate uv st user tok = (st', .ok u)) :
    u.password = "" ∧ u.passwordHash ≠ "" ∧ u.rememberHash ≠ ""
    ∧ st'.users = st.users ++ [{ u with password := "", rememberToken := "" }] := by
  obtain ⟨-, -, -, -, -, hpw, hph, hrh, -, hst⟩ := uvCreate_ok_inv uv st user tok st' u h
  exact ⟨hpw, hph, hrh, by rw [hst]⟩

/-- C4 data: a fresh signup record. -/
def userW4 : User := { email := "a@b.com", password := "password1" }

/-- C4 data: the in-memory record after the successful Create. -/
def resultW4 : User :=
  { email := "a@b.com", passwordHash := "bcrypt(password1pep)",
    rememberToken := "tok123", rememberHash := "hmac(key,tok123)" }

/-- C4 counterexample: after a successful Create the in-memory record's
RememberToken is the plaintext token, not the empty string the claim
asserts. -/
theorem create_rememberToken_not_cleared_counterexample :
    (uvCreate uvW stEmpty userW4 (some "tok123")).2 = .ok resultW4
    ∧ resultW4.rememberToken ≠ "" :=
  ⟨by decide, by decide⟩

/-- C4 witness: the amended statement at the concrete signup. -/
theorem create_success_hashes_nonempty_witness :
    resultW4.password = "" ∧ resultW4.passwordHash ≠ "" ∧ resultW4.rememberHash ≠ ""
    ∧ ((uvCreate uvW stEmpty userW4 (some "tok123")).1).users
        = stEmpty.users ++ [{ resultW4 with password := "", rememberToken := "" }] :=
  create_success_hashes_nonempty uvW stEmpty
    (uvCreate uvW stEmpty userW4 (some "tok123")).1 userW4 resultW4 (some "tok123")
    (by decide)

/-- C6: creating over an email whose normalization is already registered
fails with the "taken" validation error without writing; and the
availability check admits only the not-found outcome — a successful
Create implies the prior validated lookup reported not-found, so a found
record or an injected storage failure makes Create fail. -/
theorem create_taken_and_notfound_only (uv : UserValidator) (st : Store)
    (user : User) (tok : Option String) :
    (∀ u0, udbGetByEmail st (normalizeEmail user.email) = .ok u0 →
      normalizeEmail user.email ≠ "" →
      emailRegexMatch (normalizeEmail user.email) = true →
      uvCreate uv st user tok
        = (st, .error (.wrap "Validation Error"
            (.msg "That email address is already taken"))))
    ∧ (∀ st' u, uvCreate uv st user tok = (st', .ok u) →
      ∃ e, uvGetByEmail uv st (normalizeEmail user.email) = .error e
        ∧ errIs e .notFound = true) := by
  constructor
  · intro u0 hfound hne hfmt
    have hlook : uvGetByEmail uv st (normalizeEmail user.email) = .ok u0 := by
      simp [uvGetByEmail, runUserValFuncs, emailNormalize, emailRequired, emailFormat,
        normalizeEmail_idem, hne, hfmt, hfound]
    rw [uvCreate_eq_createSpec]
    simp [createSpec, hne, hfmt, hlook]
  · intro st' u h
    obtain ⟨-, -, -, hlook, -⟩ := uvCreate_ok_inv uv st user tok st' u h
    exact ⟨.notFound, hlook, by decide⟩

/-- C6 data: a signup whose email normalizes onto the stored user's. -/
def userDup : User := { email := " A@B.com ", password := "password1" }

/-- C6 witness: the duplicate is rejected as taken at a concrete store,
and the concrete successful Create saw the not-found outcome. -/
theorem create_taken_and_notfound_only_witness :
    uvCreate uvW stW2 userDup (some "t")
      = (stW2, .error (.wrap "Validation Error"
          (.msg "That email address is already taken")))
    ∧ ∃ e, uvGetByEmail uvW stEmpty (normalizeEmail userW4.email) = .error e
        ∧ errIs e .notFound = true :=
  ⟨(create_taken_and_notfound_only uvW stW2 userDup (some "t")).1 userW2
      (by decide) (by decide) (by decide),
   (create_taken_and_notfound_only uvW stEmpty userW4 (some "tok123")).2
      (uvCreate uvW stEmpty userW4 (some "tok123")).1 resultW4 (by decide)⟩

/-- C8: email normalization is idempotent, and because it is applied both
on Create and on lookup, a user created from any email (with no
soft-delete marker) is afterwards found by GetByEmail at the normalized
form of that email, as exactly the stored row. -/
theorem normalize_idem_and_create_lookup :
    (∀ s, normalizeEmail (normalizeEmail s) = normalizeEmail s)
    ∧ (∀ uv st st' user u tok, user.deleted = false →
        uvCreate uv st user tok = (st', .ok u) →
        uvGetByEmail uv st' (normalizeEmail user.email)
          = .ok { u with password := "", rememberToken := "" }) := by
  constructor
  · exact normalizeEmail_idem
  · intro uv st st' user u tok hdel h
    obtain ⟨hfail, hne, hfmt, hlook, hmail, -, -, -, hdel', hst⟩ :=
      uvCreate_ok_inv uv st user tok st' u h
    have hfail' : st'.fail = none := by rw [hst]; exact hfail
    have hnone : st.users.find?
        (fun x => !x.deleted && x.email == normalizeEmail user.email) = none := by
      have hGE : uvGetByEmail uv st (normalizeEmail user.email)
          = udbGetByEmail st (normalizeEmail user.email) := by
        simp [uvGetByEmail, runUserValFuncs, emailNormalize, emailRequired,
          emailFormat, normalizeEmail_idem, hne, hfmt]
      rw [hGE] at hlook
      simp only [udbGetByEmail, hfail] at hlook
      cases hfind : st.users.find?
          (fun x => !x.deleted && x.email == normalizeEmail user.email) with
      | some w => simp [hfind] at hlook
      | none => rfl
    have hGE' : uvGetByEmail uv st' (normalizeEmail user.email)
        = udbGetByEmail st' (normalizeEmail user.email) := by
      simp [uvGetByEmail, runUserValFuncs, emailNormalize, emailRequired,
        emailFormat, normalizeEmail_idem, hne, hfmt]
    rw [hGE']
    simp only [udbGetByEmail, hfail']
    rw [hst]
    simp [List.find?_append, hnone, hmail, hdel', hdel]

/-- C8 data: a signup with a denormalized email. -/
def userW8 : User := { email := " Foo@Bar.COM ", password := "password1" }

/-- C8 data: the in-memory record after the successful Create. -/
def resultW8 : User :=
  { email := "foo@bar.com", passwordHash := "bcrypt(password1pep)",
    rememberToken := "tok123", rememberHash := "hmac(key,tok123)" }

/-- C8 witness: creating with " Foo@Bar.COM " and looking up
"foo@bar.com" finds the stored record. -/
theorem normalize_idem_and_create_lookup_witness :
    normalizeEmail (normalizeEmail " Foo@Bar.COM ") = normalizeEmail " Foo@Bar.COM "
    ∧ uvGetByEmail uvW (uvCreate uvW stEmpty userW8 (some "tok123")).1
        (normalizeEmail userW8.email)
        = .ok { resultW8 with password := "", rememberToken := "" } :=
  ⟨normalize_idem_and_create_lookup.1 " Foo@Bar.COM ",
   normalize_idem_and_create_lookup.2 uvW stEmpty
     (uvCreate uvW stEmpty userW8 (some "tok123")).1 userW8 resultW8 (some "tok123")
     rfl (by decide)⟩

/-- Inversion of the persistence tail of Update, analogous to
`createTail_ok_inv`: a successful save means the store was healthy and
every row with the record's primary key was replaced by the record
without its `gorm:"-"` fields. -/
theorem updateTail_ok_inv (st : Store) (F : User) (st' : Store) (u : User)
    (h : (match udbUpdate st F with
          | (st2, Except.error e2) => (st2, (Except.error e2 : Except GoErr User))
          | (st2, Except.ok _) => (st2, Except.ok F)) = (st', Except.ok u)) :
    st.fail = none ∧ u = F
    ∧ st' = { st with users := st.users.map (fun x =>
        if x.id == F.id then { F with password := "", rememberToken := "" } else x) } := by
  unfold udbUpdate at h
  cases hfail : st.fail with
  | some m => simp [hfail] at h
  | none =>
    simp only [hfail] at h
    have hfst := congrArg Prod.fst h
    have hsnd := congrArg Prod.snd h
    exact ⟨rfl, (Except.ok.inj hsnd).symm, hfst.symm⟩

/-- A row of the store after an Update-save that carries the updated
record's ID carries the updated record's password hash. -/
theorem rows_hash_after_update (st : Store) (F : User) (r : User)
    (hr : r ∈ st.users.map (fun x =>
      if x.id == F.id then { F with password := "", rememberToken := "" } else x))
    (hid : r.id = F.id) : r.passwordHash = F.passwordHash := by
  obtain ⟨a, ha, rfl⟩ := List.mem_map.mp hr
  by_cases haid : (a.id == F.id) = true
  · simp [haid]
  · simp only [haid, if_neg, ite_false, Bool.false_eq_true] at hid ⊢
    exact absurd hid (by simpa using haid)

/-- C5: when no plaintext password is supplied, a successful Update
returns a record whose PasswordHash equals the pre-call hash and every
row written for that ID carries that hash; and a record with neither a
plaintext password nor a hash fails with a validation error and writes
nothing. -/
theorem update_preserves_passwordHash (uv : UserValidator) (st : Store) (user : User) :
    (∀ st' u', user.password = "" → uvUpdate uv st user = (st', .ok u') →
        u'.passwordHash = user.passwordHash
        ∧ ∀ r ∈ st'.users, r.id = user.id → r.passwordHash = user.passwordHash)
    ∧ (user.password = "" → user.passwordHash = "" →
        ∃ e, uvUpdate uv st user = (st, .error (.wrap "Validation Error" e))) := by
  constructor
  · intro st' u' hp h
    simp only [uvUpdate, runUserValFuncs, emailNormalize, emailRequired, emailFormat,
      passwordBcrypt, passwordHashRequired, rememberHashRequired] at h
    by_cases h1 : normalizeEmail user.email = ""
    · simp [h1] at h
    · by_cases h2 : emailRegexMatch (normalizeEmail user.email) = true
      · by_cases h5 : user.passwordHash = ""
        · simp [h1, h2, hp, h5] at h
        · by_cases h9 : user.rememberToken = ""
          · by_cases h10 : user.rememberHash = ""
            · simp [h1, h2, hp, h5, h9, h10] at h
            · simp [h1, h2, hp, h5, h9, h10] at h
              obtain ⟨hfail, hu, hst⟩ := updateTail_ok_inv st _ st' u' h
              subst hu
              refine ⟨rfl, ?_⟩
              intro r hr hid
              rw [hst] at hr
              dsimp only at hr
              exact rows_hash_after_update st ({ user with email := normalizeEmail user.email }) r hr hid
          · have hh := hmacHash_ne_empty uv.hmacKey user.rememberToken
            simp [h1, h2, hp, h5, h9, hh] at h
            obtain ⟨hfail, hu, hst⟩ := updateTail_ok_inv st _ st' u' h
            subst hu
            refine ⟨rfl, ?_⟩
            intro r hr hid
            rw [hst] at hr
            dsimp only at hr
            exact rows_hash_after_update st ({ user with email := normalizeEmail user.email, rememberHash := hmacHash uv.hmacKey user.rememberToken }) r hr hid
      · simp [h1, h2] at h
  · intro hp hph
    by_cases h1 : normalizeEmail user.email = ""
    · exact ⟨.msg "Email address is required", by
        simp [uvUpdate, runUserValFuncs, emailNormalize, emailRequired, h1]⟩
    · by_cases h2 : emailRegexMatch (normalizeEmail user.email) = true
      · exact ⟨.msg "Password is required", by
          simp [uvUpdate, runUserValFuncs, emailNormalize, emailRequired, emailFormat,
            passwordBcrypt, passwordHashRequired, h1, h2, hp, hph]⟩
      · exact ⟨.msg "Email is not a valid format", by
          simp [uvUpdate, runUserValFuncs, emailNormalize, emailRequired, emailFormat,
            h1, h2]⟩

/-- C5 data: a logged-in user updating without a new password. -/
def userW5 : User :=
  { id := 1, email := "a@b.com", passwordHash := "ph", rememberHash := "rh" }

/-- C5 data: an update request with neither password nor hash. -/
def userW5e : User := { id := 1, email := "a@b.com", rememberHash := "rh" }

/-- C5 witness: the concrete hash-preserving update and the concrete
hash-less rejection. -/
theorem update_preserves_passwordHash_witness :
    userW5.passwordHash = userW5.passwordHash
    ∧ ∃ e, uvUpdate uvW stW2 userW5e = (stW2, .error (.wrap "Validation Error" e)) :=
  ⟨((update_preserves_passwordHash uvW stW2 userW5).1
      (uvUpdate uvW stW2 userW5).1 userW5 rfl (by decide)).1,
   (update_preserves_passwordHash uvW stW2 userW5e).2 rfl rfl⟩

/-- C7: for a fresh reset record with a positive owning user ID, Create
generates a fresh plaintext token, stores a row carrying only the
(non-empty) keyed hash — never the plaintext, which the `gorm:"-"` tag
keeps out of the table — and InitiatePWReset hands the plaintext token
back to the caller; with a non-positive owning user ID the operation
fails with a validation error and persists nothing. -/
theorem pwReset_create_stores_only_hash (uv : UserValidator) (st : Store)
    (pwr : PwReset) (t : String) (now : Int) :
    (st.fail = none → pwr.userID > 0 → pwr.tokenHash = "" → t ≠ "" →
      pwrvCreate uv st pwr (some t) now
        = ({ st with pwrs := st.pwrs ++ [{ pwr with id := st.nextPwrId, token := "", tokenHash := hmacHash uv.hmacKey t, createdAt := now }], nextPwrId := st.nextPwrId + 1 },
           .ok { pwr with id := st.nextPwrId, token := t, tokenHash := hmacHash uv.hmacKey t, createdAt := now })
      ∧ hmacHash uv.hmacKey t ≠ "")
    ∧ (pwr.userID ≤ 0 →
      pwrvCreate uv st pwr (some t) now
        = (st, .error (.wrap "Validation Error" (.msg "ID Invalid"))))
    ∧ (∀ email user, uvGetByEmail uv st email = .ok user → user.id > 0 →
        st.fail = none → t ≠ "" →
        (usInitiatePWReset uv st email (some t) now).2 = .ok t) := by
  refine ⟨?_, ?_, ?_⟩
  · intro hfail hid hth ht
    have hid' : ¬(pwr.userID ≤ 0) := by omega
    constructor
    · simp [pwrvCreate, runPWResetValFuncs, pwrIdRequired, pwrTokenHashRequired,
        pwrdbCreate, hid', hth, ht, hfail]
    · exact hmacHash_ne_empty uv.hmacKey t
  · intro hid
    simp [pwrvCreate, runPWResetValFuncs, pwrIdRequired, hid]
  · intro email user hlook hid hfail ht
    have hid' : ¬(user.id ≤ 0) := by omega
    unfold usInitiatePWReset
    rw [hlook]
    simp [pwrvCreate, runPWResetValFuncs, pwrIdRequired, pwrTokenHashRequired,
      pwrdbCreate, hid', ht, hfail]

/-- C7 data: a fresh reset record owned by user 1. -/
def pwrA : PwReset := { userID := 1 }

/-- C7 data: a reset record with no valid owner. -/
def pwrB : PwReset := { userID := 0 }

/-- C7 witness: the concrete create/initiate behaviour. -/
theorem pwReset_create_stores_only_hash_witness :
    (pwrvCreate uvW stW2 pwrA (some "t1") 5
        = ({ stW2 with pwrs := stW2.pwrs ++ [{ pwrA with id := stW2.nextPwrId, token := "", tokenHash := hmacHash "key" "t1", createdAt := 5 }], nextPwrId := stW2.nextPwrId + 1 },
           .ok { pwrA with id := stW2.nextPwrId, token := "t1", tokenHash := hmacHash "key" "t1", createdAt := 5 })
      ∧ hmacHash "key" "t1" ≠ "")
    ∧ pwrvCreate uvW stW2 pwrB (some "t1") 5
        = (stW2, .error (.wrap "Validation Error" (.msg "ID Invalid")))
    ∧ (usInitiatePWReset uvW stW2 "a@b.com" (some "t1") 5).2 = .ok "t1" :=
  ⟨(pwReset_create_stores_only_hash uvW stW2 pwrA "t1" 5).1
      rfl (by decide) rfl (by decide),
   (pwReset_create_stores_only_hash uvW stW2 pwrB "t1" 5).2.1 (by decide),
   (pwReset_create_stores_only_hash uvW stW2 pwrA "t1" 5).2.2 "a@b.com" userW2
      (by decide) (by decide) rfl (by decide)⟩

/-- C10: when the incoming record already carries a non-empty TokenHash,
the validator's Create still overwrites the plaintext Token with a fresh
one but leaves the pre-existing TokenHash untouched, so the persisted
hash need not be the keyed hash of the plaintext token handed back. -/
theorem pwReset_create_keeps_existing_hash (uv : UserValidator) (st : Store)
    (pwr : PwReset) (t : String) (now : Int)
    (hfail : st.fail = none) (hhash : pwr.tokenHash ≠ "") (hid : pwr.userID > 0) :
    pwrvCreate uv st pwr (some t) now
      = ({ st with pwrs := st.pwrs ++ [{ pwr with id := st.nextPwrId, token := "", createdAt := now }], nextPwrId := st.nextPwrId + 1 },
         .ok { pwr with id := st.nextPwrId, token := t, createdAt := now })
    ∧ (hmacHash uv.hmacKey t ≠ pwr.tokenHash →
        ({ pwr with id := st.nextPwrId, token := t, createdAt := now }).tokenHash ≠ hmacHash uv.hmacKey t) := by
  constructor
  · have hid' : ¬(pwr.userID ≤ 0) := by omega
    simp [pwrvCreate, runPWResetValFuncs, pwrIdRequired, pwrTokenHashRequired,
      pwrdbCreate, hid', hhash, hfail]
  · intro hne
    exact fun hc => hne hc.symm

/-- C10 data: a reset record arriving with a pre-set hash. -/
def pwrC : PwReset := { userID := 1, tokenHash := "preexisting" }

/-- C10 witness: the pre-set hash survives and differs from the hash of
the fresh token. -/
theorem pwReset_create_keeps_existing_hash_witness :
    pwrvCreate uvW stW2 pwrC (some "t2") 7
      = ({ stW2 with pwrs := stW2.pwrs ++ [{ pwrC with id := stW2.nextPwrId, token := "", createdAt := 7 }], nextPwrId := stW2.nextPwrId + 1 },
         .ok { pwrC with id := stW2.nextPwrId, token := "t2", createdAt := 7 })
    ∧ ({ pwrC with id := stW2.nextPwrId, token := "t2", createdAt := 7 }).tokenHash ≠ hmacHash "key" "t2" :=
  ⟨(pwReset_create_keeps_existing_hash uvW stW2 pwrC "t2" 7 rfl (by decide)
      (by decide)).1,
   (pwReset_create_keeps_existing_hash uvW stW2 pwrC "t2" 7 rfl (by decide)
      (by decide)).2 (by decide)⟩
